import Mathlib

/-!
# Verification of the aurora-server caching Git proxy

Shallow embedding of the TypeScript sources of `aurora-server` (a caching
Git proxy for AUR packages) and proofs about the embedded operations.

JavaScript strings are modelled as `List Char` (`Str`); JavaScript numbers
used as counters/timestamps are modelled as `Int` (timestamps in
milliseconds, as produced by `Date.prototype.getTime`).  The few places
where the source divides a millisecond difference by `1000*60*60` and
compares the resulting floating-point number of hours against an integer
bound are embedded in the exactly equivalent integer form
`bound * 3600000 ≤ diff` (multiplying through by the positive constant;
the comparisons in the source are exact at the relevant magnitudes).
Theorems restate them in the division form over `ℚ` where a claim asks
for it.

Helper primitives on `Str` mirror the JavaScript string methods used by
the source (`split`, `trim`, `startsWith`, `includes`, `substring`,
`replace(/['"]/g,'')`, …); they are defined by structural recursion so
that concrete runs reduce inside the kernel.
-/

/-- JavaScript strings, modelled as lists of characters. -/
abbrev Str := List Char

/-- JS `String.prototype.includes`: `sub` occurs contiguously in `s`. -/
def strIncludes (s sub : Str) : Bool :=
  match s with
  | [] => sub.isEmpty
  | _ :: t => sub.isPrefixOf s || strIncludes t sub

/-- JS `String.prototype.split(sep)` for a single-character separator. -/
def splitOnChar (sep : Char) : Str → List Str
  | [] => [[]]
  | c :: t =>
    let r := splitOnChar sep t
    if c = sep then [] :: r
    else
      match r with
      | [] => [[c]]
      | h :: t2 => (c :: h) :: t2

/-- JS `String.prototype.split(pred)` splitting at every character that
satisfies `pred` (used for `split(/\s+/)`; the later `filter` on
non-empty items makes the single-character split equivalent to the
run-collapsing regular expression). -/
def splitOnPred (p : Char → Bool) : Str → List Str
  | [] => [[]]
  | c :: t =>
    let r := splitOnPred p t
    if p c then [] :: r
    else
      match r with
      | [] => [[c]]
      | h :: t2 => (c :: h) :: t2

/-- JS `String.prototype.trim`. -/
def strTrim (s : Str) : Str :=
  ((s.dropWhile Char.isWhitespace).reverse.dropWhile Char.isWhitespace).reverse

/-- JS `value.replace(/['"]/g, '')`: drop every single and double quote. -/
def removeQuotes (s : Str) : Str :=
  s.filter (fun c => !(c = Char.ofNat 39 || c = '"'))

/-- JS `String.prototype.toLowerCase` (ASCII-adequate). -/
def strToLower (s : Str) : Str := s.map Char.toLower

/-- JS `parseInt(s, 10)`: optional leading whitespace and sign, then a
non-empty run of decimal digits; `none` models `NaN`.  (The hexadecimal
`0x` form never occurs in the inputs the source passes.) -/
def jsParseInt (s : Str) : Option Int :=
  let t := s.dropWhile Char.isWhitespace
  let (sign, t) : Int × Str :=
    match t with
    | '-' :: r => (-1, r)
    | '+' :: r => (1, r)
    | _ => (1, t)
  let digits := t.takeWhile Char.isDigit
  if digits.isEmpty then none
  else some (sign * (digits.foldl (fun a c => a * 10 + ((c.toNat : Int) - ('0'.toNat : Int))) (0 : Int)))

/-!
## Metadata store: `PackageDatabase` (src/unnamed/part_000)

One row of the `packages` relation.  All request processing for a single
HTTP request touches exactly one package name, so the database is
modelled per-name as `Option PackageRecord` (the row for that name, if
present).  Timestamps are milliseconds since the epoch.
-/

/-- A row of the `packages` relation (part_000, `PackageRecord`). -/
structure PackageRecord where
  fetched_at : Int
  last_accessed : Int
  last_meaningful_access : Int
  ttl_hours : Int
  fetch_count : Int
  total_requests : Int
deriving DecidableEq, Repr

/-- `PackageDatabase.recordPackageFetch` (part_000 lines 84-102): update
`fetched_at`, `fetch_count`, `ttl_hours` when the row exists, otherwise
insert a fresh row with both counters 1 and all timestamps `now`. -/
def recordPackageFetch (db : Option PackageRecord) (ttlHours : Int) (now : Int) :
    Option PackageRecord :=
  match db with
  | some r => some { r with fetched_at := now, fetch_count := r.fetch_count + 1,
                            ttl_hours := ttlHours }
  | none => some { fetched_at := now, last_accessed := now, last_meaningful_access := now,
                   ttl_hours := ttlHours, fetch_count := 1, total_requests := 1 }

/-- `PackageDatabase.updateLastAccessed` (part_000 lines 107-115): SQL
`UPDATE` of `last_accessed` and `total_requests`; a no-op when the row
is absent. -/
def updateLastAccessed (db : Option PackageRecord) (now : Int) : Option PackageRecord :=
  db.map fun r => { r with last_accessed := now, total_requests := r.total_requests + 1 }

/-- `PackageDatabase.updateLastMeaningfulAccess` (part_000 lines 120-128). -/
def updateLastMeaningfulAccess (db : Option PackageRecord) (now : Int) :
    Option PackageRecord :=
  db.map fun r => { r with last_meaningful_access := now }

/-- `PackageDatabase.incrementFetchCount` (part_000 lines 133-140). -/
def incrementFetchCount (db : Option PackageRecord) : Option PackageRecord :=
  db.map fun r => { r with fetch_count := r.fetch_count + 1 }

/-- `PackageDatabase.shouldRefreshPackage` (part_000 lines 165-182):
true when no row exists, or when
`(now - fetched_at) / (1000*60*60) >= ttl_hours`; the floating-point
division is embedded in the equivalent multiplied-through integer
form. -/
def shouldRefreshPackage (db : Option PackageRecord) (now : Int) : Bool :=
  match db with
  | none => true
  | some r => decide (r.ttl_hours * 3600000 ≤ now - r.fetched_at)

/-!
## RPC response cache (part_000 lines 370-437)
-/

/-- A row of the `rpc_cache` relation. -/
structure RpcRow where
  cache_key : Str
  response_data : Str
  cached_at : Int
deriving DecidableEq, Repr

/-- The `rpc_cache` relation (`cache_key` is the primary key). -/
abbrev RpcStore := List RpcRow

/-- The `URLSearchParams` view of a query string: the `?` is dropped,
empty `&`-pieces are skipped, and each piece is split at its first `=`
(no `=` gives the empty value).  Percent-decoding is not modelled; the
queries the proofs evaluate contain no escapes. -/
def parseQuery (query : Str) : List (Str × Str) :=
  let q := match query with
           | '?' :: t => t
           | _ => query
  (splitOnChar '&' q).filterMap fun piece =>
    match piece with
    | [] => none
    | _ =>
      match splitOnChar '=' piece with
      | [] => none
      | [k] => some (k, ([] : Str))
      | k :: rest => some (k, List.intercalate ['='] rest)

/-- First value for `key`, as returned by `URLSearchParams.get`. -/
def getParam (query : Str) (key : Str) : Option Str :=
  ((parseQuery query).find? (fun p => p.1 == key)).map (·.2)

/-- All values for `key`, in order (`URLSearchParams.getAll`). -/
def getAllParams (query : Str) (key : Str) : List Str :=
  (parseQuery query).filterMap fun p => if p.1 = key then some p.2 else none

/-- JS `x || 'unknown'` on the result of `searchParams.get('type')`. -/
def jsOrUnknown (v : Option Str) : Str :=
  match v with
  | some t => if t.isEmpty then "unknown".data else t
  | none => "unknown".data

/-- `PackageDatabase.generateRPCCacheKey` (part_000 lines 413-437).  The
source's two early `return`s become the `searchKey`/`infoKey` options;
JS truthiness of `arg` ("" is falsy) is spelled out.  The `catch` arm
(an unparsable URL) cannot arise in this embedding, whose query parser
is total. -/
def generateRPCCacheKey (path query : Str) : Str :=
  let ty := jsOrUnknown (getParam query "type".data)
  let searchKey : Option Str :=
    if ty = "search".data then
      match getParam query "arg".data with
      | some arg =>
        if arg.isEmpty then none
        else some (path ++ "?type=".data ++ ty ++ "&arg=".data ++ arg)
      | none => none
    else none
  let infoKey : Option Str :=
    if ty = "info".data then
      let args := getAllParams query "arg[]".data
      if args.isEmpty then none
      else
        some (path ++ "?type=".data ++ ty ++ "&packages=".data ++
              List.intercalate [','] (List.insertionSort (· ≤ ·) args))
    else none
  match searchKey with
  | some k => k
  | none =>
    match infoKey with
    | some k => k
    | none => path ++ query

/-- `PackageDatabase.getCachedRPCResponse` (part_000 lines 370-393):
look the canonical key up; a hit older than 12 hours is deleted and
reported as a miss.  The `(now-cached_at)/(1000*60*60) >= 12` comparison
is embedded multiplied through. -/
def getCachedRPCResponse (path query : Str) (now : Int) (store : RpcStore) :
    Option Str × RpcStore :=
  let cacheKey := generateRPCCacheKey path query
  match store.find? (fun row => row.cache_key == cacheKey) with
  | none => (none, store)
  | some row =>
    if 12 * 3600000 ≤ now - row.cached_at then
      (none, store.filter (fun row => !(row.cache_key == cacheKey)))
    else
      (some row.response_data, store)

/-- `PackageDatabase.cacheRPCResponse` (part_000 lines 398-408):
`INSERT OR REPLACE` keyed on `cache_key`. -/
def cacheRPCResponse (path query data : Str) (now : Int) (store : RpcStore) : RpcStore :=
  let cacheKey := generateRPCCacheKey path query
  ⟨cacheKey, data, now⟩ :: store.filter (fun row => !(row.cache_key == cacheKey))

/-!
## Package materialization: `AURService` (src/src/services/AURService.ts)

The on-disk state for one package name is `Option Dir`: `none` when
`cache_root/<name>` does not exist, `some d` when the directory exists,
with `d` recording whether its `.git` subdirectory and its `PKGBUILD`
file are present (the two facts `cloneAURPackage` validates).
`fs.rmSync` is modelled as succeeding (its failure is caught and only
logged in the source).  The outcome of the spawned `git clone` is an
explicit parameter: it either times out (30 s), fails to spawn, or
closes with an exit code, leaving some directory state behind.
-/

/-- Presence of the validated artefacts inside `cache_root/<name>`. -/
structure Dir where
  hasDotGit : Bool
  hasPkgbuild : Bool
deriving DecidableEq, Repr

/-- Outcome of the spawned `git clone` subprocess. -/
inductive CloneOutcome where
  | timeout
  | spawnError
  | closed (code : Int) (result : Option Dir)
deriving DecidableEq, Repr

/-- Git subcommands issued by `AURService` while materializing.  The
`cloneMirror` constructor is part of the command vocabulary so that
mirror-fallback claims can be stated; the implementation never issues
it. -/
inductive GitCmd where
  | cloneAUR (name : Str)
  | cloneMirror (name : Str)
  | configBare (name : Str)
  | recordFetch (name : Str) (ttl : Int)
deriving DecidableEq, Repr

/-- The validation test of `cloneAURPackage` (AURService.ts lines
198-201): `fs.existsSync(repoPath/.git) && fs.existsSync(repoPath/PKGBUILD)`
(both false when `repoPath` itself is absent). -/
def validClone (fs : Option Dir) : Bool :=
  match fs with
  | none => false
  | some d => d.hasDotGit && d.hasPkgbuild

/-- The result slot of `RepositoryInfo` that the claims need (the two
path fields are both `cache_root/<name>` and are determined by
`name`). -/
structure RepoInfoM where
  name : Str
  isBare : Bool
deriving DecidableEq, Repr

/-- Result of `cloneAURPackage`: the resolved boolean, the directory
state left at `cache_root/<name>`, and the Git commands issued. -/
structure CloneResult where
  ok : Bool
  fs : Option Dir
  trace : List GitCmd
deriving DecidableEq, Repr

/-- Result of `fetchPackageFromAUR`. -/
structure FetchResult where
  info : Option RepoInfoM
  fs : Option Dir
  trace : List GitCmd
deriving DecidableEq, Repr

/-- `AURService.cloneAURPackage` (AURService.ts lines 168-237): remove
any pre-existing partial directory, run
`git clone https://aur.archlinux.org/<name>.git`, and
- on the 30 s timeout: kill, remove the partial directory, resolve false;
- on exit code 0: validate; keep the directory and resolve true if valid,
  otherwise remove it and resolve false;
- on a non-zero exit code or a spawn error: remove the partial directory
  and resolve false.
The pre-existing directory (`preexisting`) is removed before the clone,
so the final state depends only on the clone outcome. -/
def cloneAURPackage (name : Str) (preexisting : Option Dir) (out : CloneOutcome) :
    CloneResult :=
  match preexisting, out with
  | _, .timeout => ⟨false, none, [.cloneAUR name]⟩
  | _, .spawnError => ⟨false, none, [.cloneAUR name]⟩
  | _, .closed code result =>
    if code = 0 then
      if validClone result then ⟨true, result, [.cloneAUR name]⟩
      else ⟨false, none, [.cloneAUR name]⟩
    else ⟨false, none, [.cloneAUR name]⟩

/-- `AURService.fetchPackageFromAUR` (AURService.ts lines 30-74): clone;
on failure remove any remainder of `repo_path` and return `null`; on
success flip `core.bare` (`convertToBareRepository`, which only edits
the Git config and leaves the directory contents in place), record the
fetch with TTL 12, and return the repository info. -/
def fetchPackageFromAUR (name : Str) (preexisting : Option Dir) (out : CloneOutcome) :
    FetchResult :=
  let c := cloneAURPackage name preexisting out
  if c.ok then
    { info := some ⟨name, true⟩, fs := c.fs,
      trace := c.trace ++ [.configBare name, .recordFetch name 12] }
  else
    { info := none, fs := none, trace := c.trace }

/-!
## Git lane: `GitRepositoryManager` and `GitRequestHandler`

Database effects of a Git request whose repository directory already
exists on disk (`GitRepositoryManager.extractRepositoryInfo`, lines
39-83, existing-directory branch, followed by
`GitRequestHandler.handleGitRequest`'s `recordGitRequest`).  `git pull`
of the refresh path is abstracted by its success bit `pullOk`.
-/

/-- The condition of GitRepositoryManager.ts line 73: the request is
pack or object traffic. -/
def isPackOrObjectsPath (param : Str) : Bool :=
  strIncludes param "git-upload-pack".data ||
  strIncludes param "git-receive-pack".data ||
  strIncludes param "/objects/".data

/-- `AURService.ensurePackageRecorded` (AURService.ts lines 116-127):
insert a fresh row when none exists, otherwise increment
`fetch_count`. -/
def ensurePackageRecorded (db : Option PackageRecord) (now : Int) : Option PackageRecord :=
  match db with
  | none => recordPackageFetch db 12 now
  | some _ => incrementFetchCount db

/-- `AURService.refreshPackage` (AURService.ts lines 79-97): run
`git pull`; on success record the fetch with TTL 12, otherwise leave the
database unchanged. -/
def refreshPackage (db : Option PackageRecord) (pullOk : Bool) (now : Int) :
    Option PackageRecord :=
  if pullOk then recordPackageFetch db 12 now else db

/-- Database effects of
`GitRepositoryManager.extractRepositoryInfo` (lines 62-83) when
`cache_root/<name>` already exists: `ensurePackageRecorded`, then a
refresh when `shouldRefreshPackage` says so, then — for pack/object
traffic — `updateLastAccessed`.  (The source never calls
`updateLastMeaningfulAccess`.) -/
def extractRepositoryInfoDb (param : Str) (db : Option PackageRecord) (pullOk : Bool)
    (now : Int) : Option PackageRecord :=
  let db1 := ensurePackageRecorded db now
  let db2 := if shouldRefreshPackage db1 now then refreshPackage db1 pullOk now else db1
  if isPackOrObjectsPath param then updateLastAccessed db2 now else db2

/-- `AURService.recordGitRequest` (AURService.ts lines 276-278), called
from `GitRequestHandler.handleGitRequest` line 24. -/
def recordGitRequest (db : Option PackageRecord) (now : Int) : Option PackageRecord :=
  updateLastAccessed db now

/-- Database effects of `GitRequestHandler.handleGitRequest` (lines
15-35) for a request routed to an already-materialized repository:
repository extraction followed by `recordGitRequest`. -/
def handleGitRequestDb (param : Str) (db : Option PackageRecord) (pullOk : Bool)
    (now : Int) : Option PackageRecord :=
  recordGitRequest (extractRepositoryInfoDb param db pullOk now) now

/-- An HTTP response of the Git gateway, as far as the claims need it. -/
structure GitHttpResponse where
  status : Nat
  body : Str
deriving DecidableEq, Repr

/-- `GitRequestHandler.handleGitRequest` (lines 15-35), routing stage:
either the 404 of the repository-not-found branch, or the request
proceeds with the repository info. -/
inductive GitRouteResult where
  | notFound (resp : GitHttpResponse)
  | proceed (info : RepoInfoM)
deriving DecidableEq, Repr

/-- The routing decision of `GitRequestHandler.handleGitRequest` on the
result of `extractRepositoryInfo` (GitRequestHandler.ts lines 17-22). -/
def handleGitRequestRoute (extract : Option RepoInfoM) : GitRouteResult :=
  match extract with
  | none =>
    .notFound ⟨404, "Repository not found in cache and could not be fetched from AUR".data⟩
  | some info => .proceed info

/-!
## RPC translator: `RPCHandler` (AURService.ts lines 588-984)

The `AURPackage` record, the two recipe parsers, and the request
dispatcher.  `Date.now()/1000` timestamps are passed in as `nowSec`.
`execSync` of the generated wrapper script is abstracted by its outcome
`shell : Option Str` — `some output` when bash exits 0 within the 10 s
budget, `none` when it fails or times out (in which case the source's
inner `catch` leaves `output` as the empty string).
-/

/-- The `AURPackage` interface (AURService.ts lines 596-615). -/
structure AURPackage where
  Name : Str
  PackageBase : Str
  Version : Str
  Description : Str
  URL : Str
  Maintainer : Str
  NumVotes : Int
  Popularity : Int
  OutOfDate : Option Int
  FirstSubmitted : Int
  LastModified : Int
  License : List Str
  Depends : List Str
  MakeDepends : List Str
  Conflicts : List Str
  Provides : List Str
  Replaces : List Str
  Keywords : List Str
deriving DecidableEq, Repr

/-- `RPCHandler.extractValue` (AURService.ts lines 919-927): the first
line beginning `key=` yields the remainder, trimmed and with all quotes
removed. -/
def extractValue (lines : List Str) (key : Str) : Str :=
  match lines.find? (fun line => (key ++ ['=']).isPrefixOf line) with
  | some line => removeQuotes (strTrim (line.drop (key.length + 1)))
  | none => []

/-- `RPCHandler.extractArray` (AURService.ts lines 932-945): the first
line beginning `key=` whose trimmed remainder is parenthesized is split
on single spaces; each item is trimmed, stripped of quotes, and empty
items are dropped.  (A matching line that is not parenthesized is
skipped and the scan continues — the source only returns inside the
parenthesized branch.) -/
def extractArray (lines : List Str) (key : Str) : List Str :=
  let arrValue := fun (line : Str) => strTrim (line.drop (key.length + 1))
  let isArrLine := fun (line : Str) =>
    (key ++ ['=']).isPrefixOf line &&
      ((arrValue line).head? == some '(' && (arrValue line).getLast? == some ')')
  match lines.find? isArrLine with
  | some line =>
    let value := arrValue line
    let arrayContent := (value.drop 1).dropLast
    ((splitOnChar ' ' arrayContent).map (fun item => removeQuotes (strTrim item))).filter
      (fun item => !item.isEmpty)
  | none => []

/-- One line of the wrapper-script output, against `^([A-Z_]+)=(.*)$`
(AURService.ts line 840). -/
def parseShellKV (line : Str) : Option (Str × Str) :=
  let key := line.takeWhile (fun c => ('A' ≤ c && c ≤ 'Z') || c = '_')
  if key.isEmpty then none
  else
    match line.drop key.length with
    | '=' :: v => some (key, v)
    | _ => none

/-- `variables[match[1]] = match[2]` — later lines overwrite earlier
ones. -/
def upsertVar (vars : List (Str × Str)) (kv : Str × Str) : List (Str × Str) :=
  vars.filter (fun p => !(p.1 == kv.1)) ++ [kv]

/-- The `variables` record built from the wrapper-script output
(AURService.ts lines 838-844).  An absent key and an empty value are
both JS-falsy, so absence is collapsed to the empty string. -/
def shellVariables (output : Str) : List (Str × Str) :=
  (splitOnChar '\n' output).foldl
    (fun acc line =>
      match parseShellKV line with
      | some kv => upsertVar acc kv
      | none => acc) []

/-- Lookup in `shellVariables` (JS property access, `undefined` ↦ ""). -/
def lookupVar (vars : List (Str × Str)) (key : Str) : Str :=
  match vars.find? (fun p => p.1 == key) with
  | some p => p.2
  | none => []

/-- JS `value || dflt` for strings. -/
def jsOrDefault (v dflt : Str) : Str := if v.isEmpty then dflt else v

/-- `value.replace(/^\(|\)$/g, "")`: strip one leading `(` and one
trailing `)`. -/
def stripParens (s : Str) : Str :=
  let s1 := match s with
            | '(' :: t => t
            | _ => s
  match s1.getLast? with
  | some ')' => s1.dropLast
  | _ => s1

/-- The `parseArray` helper inside `parsePKGBUILD` (AURService.ts lines
847-855): strip parens, trim, split on whitespace, remove quotes then
trim each item, drop empties. -/
def shellParseArray (value : Str) : List Str :=
  if value.isEmpty then []
  else
    let cleaned := strTrim (stripParens value)
    if cleaned.isEmpty then []
    else
      ((splitOnPred Char.isWhitespace cleaned).map
        (fun item => strTrim (removeQuotes item))).filter (fun item => !item.isEmpty)

/-- `RPCHandler.parsePKGBUILD` (AURService.ts lines 794-884), the
shell-evaluation strategy.  When `execSync` fails or exceeds its 10 s
timeout, the inner `catch` (line 829) only logs and leaves `output`
empty, so the record is assembled from an empty variable set — the
outer `catch` that would reach `fallbackParsePKGBUILD` is not taken for
a bash failure.  `content` feeds the wrapper script (hence the shell
outcome), not the assembled record. -/
def parsePKGBUILD (packageName : Str) (_content : Str) (shell : Option Str)
    (nowSec : Int) : AURPackage :=
  let output : Str := match shell with
                      | some o => o
                      | none => []
  let vars := shellVariables output
  { Name := packageName
    PackageBase := packageName
    Version := jsOrDefault (lookupVar vars "PKGVER".data) "unknown".data ++ ['-'] ++
               jsOrDefault (lookupVar vars "PKGREL".data) "1".data
    Description := jsOrDefault (lookupVar vars "PKGDESC".data)
      "No description available".data
    URL := lookupVar vars "URL".data
    Maintainer := jsOrDefault (lookupVar vars "MAINTAINER".data) "Unknown".data
    NumVotes := 0
    Popularity := 0
    OutOfDate := none
    FirstSubmitted := nowSec
    LastModified := nowSec
    License := shellParseArray (lookupVar vars "LICENSE".data)
    Depends := shellParseArray (lookupVar vars "DEPENDS".data)
    MakeDepends := shellParseArray (lookupVar vars "MAKEDEPENDS".data)
    Conflicts := shellParseArray (lookupVar vars "CONFLICTS".data)
    Provides := shellParseArray (lookupVar vars "PROVIDES".data)
    Replaces := shellParseArray (lookupVar vars "REPLACES".data)
    Keywords := [] }

/-- `RPCHandler.fallbackParsePKGBUILD` (AURService.ts lines 889-914):
the line-scan strategy.  (`extractValue('pkgver') + "-" +
extractValue('pkgrel') || 'Unknown version'` — the `||` arm is
preserved although the concatenation always contains `-` and is never
falsy.) -/
def fallbackParsePKGBUILD (packageName : Str) (content : Str) (nowSec : Int) :
    AURPackage :=
  let lines := splitOnChar '\n' content
  { Name := packageName
    PackageBase := packageName
    Version := jsOrDefault
      (extractValue lines "pkgver".data ++ ['-'] ++ extractValue lines "pkgrel".data)
      "Unknown version".data
    Description := jsOrDefault (extractValue lines "pkgdesc".data)
      "No description available".data
    URL := extractValue lines "url".data
    Maintainer := jsOrDefault (extractValue lines "Maintainer".data) "Unknown".data
    NumVotes := 0
    Popularity := 0
    OutOfDate := none
    FirstSubmitted := nowSec
    LastModified := nowSec
    License := extractArray lines "license".data
    Depends := extractArray lines "depends".data
    MakeDepends := extractArray lines "makedepends".data
    Conflicts := extractArray lines "conflicts".data
    Provides := extractArray lines "provides".data
    Replaces := extractArray lines "replaces".data
    Keywords := [] }

/-!
### JSON responses (`JSON.stringify(response, null, 2)`)
-/

/-- `JSON.stringify` escaping for one character (quote, backslash and
the common control characters; other control characters do not occur in
the evaluated inputs). -/
def jsonEscapeChar (c : Char) : Str :=
  if c = '"' then ['\\', '"']
  else if c = '\\' then ['\\', '\\']
  else if c = '\n' then ['\\', 'n']
  else if c = '\r' then ['\\', 'r']
  else if c = '\t' then ['\\', 't']
  else [c]

/-- A JSON string literal. -/
def jsonString (s : Str) : Str :=
  ['"'] ++ (s.map jsonEscapeChar).flatten ++ ['"']

/-- A JSON integer literal. -/
def jsonInt (n : Int) : Str := (toString n).data

/-- `n` spaces of `JSON.stringify` indentation. -/
def spaces (n : Nat) : Str := List.replicate n ' '

/-- A pretty-printed JSON array of strings whose brackets sit at
indentation `ind` (elements at `ind + 2`); `[]` when empty. -/
def jsonStrArray (ind : Nat) (l : List Str) : Str :=
  match l with
  | [] => "[]".data
  | _ =>
    ['[', '\n'] ++
    List.intercalate (',' :: '\n' :: [])
      (l.map (fun s => spaces (ind + 2) ++ jsonString s)) ++
    ['\n'] ++ spaces ind ++ [']']

/-- One `AURPackage` as pretty-printed by `JSON.stringify(·, null, 2)`
with its braces at indentation `ind` (fields at `ind + 2`), fields in
the declaration order of the interface. -/
def serializeAURPackage (ind : Nat) (p : AURPackage) : Str :=
  let field := fun (k : Str) (v : Str) => spaces (ind + 2) ++ jsonString k ++ ':' :: ' ' :: v
  ['{', '\n'] ++
  List.intercalate (',' :: '\n' :: [])
    [ field "Name".data (jsonString p.Name),
      field "PackageBase".data (jsonString p.PackageBase),
      field "Version".data (jsonString p.Version),
      field "Description".data (jsonString p.Description),
      field "URL".data (jsonString p.URL),
      field "Maintainer".data (jsonString p.Maintainer),
      field "NumVotes".data (jsonInt p.NumVotes),
      field "Popularity".data (jsonInt p.Popularity),
      field "OutOfDate".data (match p.OutOfDate with
                              | some n => jsonInt n
                              | none => "null".data),
      field "FirstSubmitted".data (jsonInt p.FirstSubmitted),
      field "LastModified".data (jsonInt p.LastModified),
      field "License".data (jsonStrArray (ind + 2) p.License),
      field "Depends".data (jsonStrArray (ind + 2) p.Depends),
      field "MakeDepends".data (jsonStrArray (ind + 2) p.MakeDepends),
      field "Conflicts".data (jsonStrArray (ind + 2) p.Conflicts),
      field "Provides".data (jsonStrArray (ind + 2) p.Provides),
      field "Replaces".data (jsonStrArray (ind + 2) p.Replaces),
      field "Keywords".data (jsonStrArray (ind + 2) p.Keywords) ] ++
  ['\n'] ++ spaces ind ++ ['}']

/-- The `results` array of the info response. -/
def serializeResults (packages : List AURPackage) : Str :=
  match packages with
  | [] => "[]".data
  | _ =>
    ['[', '\n'] ++
    List.intercalate (',' :: '\n' :: [])
      (packages.map (fun p => spaces 4 ++ serializeAURPackage 4 p)) ++
    "\n  ]".data

/-- `RPCHandler.generateInfoResponse` (AURService.ts lines 950-958):
`{resultcount, results, type: 'multiinfo', version: 5}` pretty-printed
with 2-space indent. -/
def generateInfoResponse (packages : List AURPackage) : Str :=
  "\x7b\n  \"resultcount\": ".data ++ jsonInt packages.length ++
  ",\n  \"results\": ".data ++ serializeResults packages ++
  ",\n  \"type\": \"multiinfo\",\n  \"version\": 5\n\x7d".data

/-- `RPCHandler.generateEmptyResponse` (AURService.ts lines 963-971). -/
def generateEmptyResponse (type : Str) (version : Int) : Str :=
  "\x7b\n  \"resultcount\": 0,\n  \"results\": [],\n  \"type\": ".data ++ jsonString type ++
  ",\n  \"version\": ".data ++ jsonInt version ++ "\n\x7d".data

/-- `RPCHandler.generateErrorResponse` (AURService.ts lines 976-983). -/
def generateErrorResponse : Str :=
  "\x7b\n  \"error\": \"Internal server error\",\n  \"type\": \"error\",\n  \"version\": 5\n\x7d".data

/-!
### Request dispatch (AURService.ts lines 629-717)

`getPackageInfo` (materialize through `fetchPackageFromAUR` if needed,
read `PKGBUILD`, parse) is abstracted as a function of the package
name, and the cache-directory listing used by `searchPackages` as a
list of names; both are supplied by an `RpcEnv`.  Nothing in
`RPCHandler` reads or writes the `rpc_cache` relation.
-/

/-- The environment `RPCHandler` queries: the result of
`getPackageInfo` per package name, and `fs.readdirSync` of the cache
directory. -/
structure RpcEnv where
  pkgInfo : Str → Option AURPackage
  cacheDirListing : List Str

/-- `version || 5` followed by `parseInt(version) || 5` inside
`generateEmptyResponse` (`null`, `""`, `"0"` and non-numeric strings
all end at 5). -/
def emptyVersionOf (v : Option Str) : Int :=
  match v with
  | none => 5
  | some s =>
    if s.isEmpty then 5
    else
      match jsParseInt s with
      | none => 5
      | some 0 => 5
      | some n => n

/-- `RPCHandler.handleInfoRequest` (AURService.ts lines 656-676). -/
def handleInfoRequest (env : RpcEnv) (query : Str) : Str :=
  let args := getAllParams query "arg[]".data
  if args.isEmpty then generateEmptyResponse "info".data 5
  else
    let packages := args.filterMap env.pkgInfo
    if packages.length > 0 then generateInfoResponse packages
    else generateEmptyResponse "info".data 5

/-- `RPCHandler.handleMultiInfoRequest` (AURService.ts lines 681-700). -/
def handleMultiInfoRequest (env : RpcEnv) (query : Str) : Str :=
  let args := getAllParams query "arg[]".data
  if args.isEmpty then generateEmptyResponse "multiinfo".data 5
  else
    let packages := args.filterMap env.pkgInfo
    if packages.length > 0 then generateInfoResponse packages
    else generateEmptyResponse "multiinfo".data 5

/-- `RPCHandler.searchPackages` (AURService.ts lines 761-792):
case-insensitive substring filter over the cache directory; when
nothing matches, attempt to materialize the literal search term and
include its parse result. -/
def searchPackages (env : RpcEnv) (searchTerm : Str) : List AURPackage :=
  let fromCache :=
    (env.cacheDirListing.filter
      (fun item => strIncludes (strToLower item) (strToLower searchTerm))).filterMap
      env.pkgInfo
  if fromCache.isEmpty then
    match env.pkgInfo searchTerm with
    | some p => [p]
    | none => []
  else fromCache

/-- `RPCHandler.handleSearchRequest` (AURService.ts lines 705-717). -/
def handleSearchRequest (env : RpcEnv) (query : Str) : Str :=
  match getParam query "arg".data with
  | none => generateEmptyResponse "search".data 5
  | some arg =>
    if arg.isEmpty then generateEmptyResponse "search".data 5
    else
      let packages := searchPackages env arg
      if packages.length > 0 then generateInfoResponse packages
      else generateEmptyResponse "search".data 5

/-- `RPCHandler.handleRPCRequest` (AURService.ts lines 629-651):
dispatch on the `type` parameter.  No branch consults the RPC response
cache. -/
def handleRPCRequest (env : RpcEnv) (_path query : Str) : Str :=
  let type? := getParam query "type".data
  let version? := getParam query "v".data
  if type? = some "info".data then handleInfoRequest env query
  else if type? = some "search".data then handleSearchRequest env query
  else if type? = some "multiinfo".data then handleMultiInfoRequest env query
  else generateEmptyResponse (jsOrUnknown type?) (emptyVersionOf version?)

/-- The `/rpc` lane of `GitServer.setupRoutes` (GitServer.ts lines
80-92): `GitRepositoryManager.handleRPCRequest` (lines 142-146)
constructs an `RPCHandler` and delegates.  The `rpc_cache` relation
(`store`) is part of the system state; no code on this lane reads or
writes it, so it passes through unchanged. -/
def rpcLane (store : RpcStore) (env : RpcEnv) (path query : Str) : Str × RpcStore :=
  (handleRPCRequest env path query, store)

/-!
## Concrete inputs used by the evaluation theorems
-/

/-- A recipe whose shell evaluation exceeds the 10-second budget (the
sourced script never terminates) while the line scan extracts
`pkgver`/`pkgrel` normally. -/
def failingPKGBUILD : Str := "pkgver=2.0\npkgrel=3\nwhile true; do :; done".data

/-- An environment in which no package can be materialized or parsed. -/
def emptyRpcEnv : RpcEnv := ⟨fun _ => none, []⟩

/-- An `info` query for the single package `foo`. -/
def rpcQfoo : Str := "?type=info&arg[]=foo".data

/-- An `rpc_cache` state holding a fresh entry, under the canonical
key of `rpcQfoo`, whose stored bytes are `CACHED`. -/
def rpcStoreWithFreshEntry : RpcStore :=
  cacheRPCResponse "/rpc".data rpcQfoo "CACHED".data 0 []

/-- A package row fetched at time 0 with the default TTL of 12 hours. -/
def recTtl12 : PackageRecord :=
  { fetched_at := 0, last_accessed := 0, last_meaningful_access := 0,
    ttl_hours := 12, fetch_count := 1, total_requests := 1 }

/-- A package row with distinctive counter values (fetched at time 0,
TTL 12 hours, 3 fetches, 5 requests). -/
def recCounters : PackageRecord :=
  { fetched_at := 0, last_accessed := 0, last_meaningful_access := 0,
    ttl_hours := 12, fetch_count := 3, total_requests := 5 }

/-- The trace of `cloneAURPackage` is the single primary clone command,
whatever the outcome. -/
theorem cloneAURPackage_trace (name : Str) (pre : Option Dir) (out : CloneOutcome) :
    (cloneAURPackage name pre out).trace = [.cloneAUR name] := by
  rcases out with _ | _ | ⟨code, result⟩
  · rfl
  · rfl
  · simp only [cloneAURPackage]
    split
    · split
      · rfl
      · rfl
    · rfl

/-- Claim C7: `shouldRefreshPackage` returns true precisely when no row
exists or the elapsed time in hours, `(now - fetched_at)/(1000*60*60)`,
is at least `ttl_hours`; with the default TTL of 12 hours it is still
false 11:59:59 after the fetch and true exactly 12:00:00 after it. -/
theorem shouldRefreshPackage_spec :
    (∀ (db : Option PackageRecord) (now : Int),
        shouldRefreshPackage db now = true ↔
          db = none ∨ ∃ r, db = some r ∧
            ((now - r.fetched_at : ℚ) / (1000 * 60 * 60) ≥ (r.ttl_hours : ℚ)))
    ∧ shouldRefreshPackage (some recTtl12) (11 * 3600000 + 59 * 60000 + 59 * 1000) = false
    ∧ shouldRefreshPackage (some recTtl12) (12 * 3600000) = true := by
  refine ⟨?_, by decide, by decide⟩
  intro db now
  have hpos : (0 : ℚ) < 1000 * 60 * 60 := by norm_num
  cases db with
  | none => simp [shouldRefreshPackage]
  | some r =>
    simp only [shouldRefreshPackage, decide_eq_true_eq, reduceCtorEq, Option.some.injEq,
      false_or]
    constructor
    · intro h
      refine ⟨r, rfl, ?_⟩
      rw [ge_iff_le, le_div_iff₀ hpos]
      have : ((r.ttl_hours * 3600000 : Int) : ℚ) ≤ ((now - r.fetched_at : Int) : ℚ) := by
        exact_mod_cast h
      push_cast at this
      linarith
    · rintro ⟨r', hr', hq⟩
      cases hr'
      rw [ge_iff_le, le_div_iff₀ hpos] at hq
      have : ((r.ttl_hours * 3600000 : Int) : ℚ) ≤ ((now - r.fetched_at : Int) : ℚ) := by
        push_cast
        linarith
      exact_mod_cast this

/-- Witness for C7's theorem: a missing row forces a refresh. -/
theorem shouldRefreshPackage_spec_witness : shouldRefreshPackage none 0 = true :=
  (shouldRefreshPackage_spec.1 none 0).mpr (Or.inl rfl)

/-- Claim C9 (counterexample): the repository-not-found response does
not carry the body `Repository not found in cache and could not be
fetched from upstream` — the code's body ends `… from AUR`. -/
theorem handleGitRequestRoute_body_not_upstream :
    handleGitRequestRoute none ≠
      .notFound ⟨404,
        "Repository not found in cache and could not be fetched from upstream".data⟩ := by
  decide

/-- Claim C9 (amended): when the cache manager cannot locate or
materialize the repository (`extractRepositoryInfo` returned absent),
the gateway responds HTTP 404 with exactly the body
`Repository not found in cache and could not be fetched from AUR`. -/
theorem handleGitRequestRoute_notFound :
    handleGitRequestRoute none =
      .notFound ⟨404,
        "Repository not found in cache and could not be fetched from AUR".data⟩ := rfl

/-- Claim C2: after a completed materialization attempt the directory
for the name is either absent or passes validation, a clone attempt
fails exactly when it leaves no directory behind, and a failed
materialization leaves no directory behind. -/
theorem fetchPackageFromAUR_atomic :
    ∀ (name : Str) (pre : Option Dir) (out : CloneOutcome),
      ((fetchPackageFromAUR name pre out).fs = none ∨
        validClone (fetchPackageFromAUR name pre out).fs = true)
      ∧ ((cloneAURPackage name pre out).ok = false ↔
          (cloneAURPackage name pre out).fs = none)
      ∧ ((fetchPackageFromAUR name pre out).info = none →
          (fetchPackageFromAUR name pre out).fs = none) := by
  intro name pre out
  rcases out with _ | _ | ⟨code, result⟩
  · exact ⟨Or.inl rfl, by simp [cloneAURPackage], fun _ => rfl⟩
  · exact ⟨Or.inl rfl, by simp [cloneAURPackage], fun _ => rfl⟩
  · by_cases hc : code = 0
    · by_cases hv : validClone result = true
      · refine ⟨Or.inr ?_, ?_, ?_⟩
        · simp [fetchPackageFromAUR, cloneAURPackage, hc, hv]
        · simp [cloneAURPackage, hc, hv]
          intro h
          rw [h] at hv
          simp [validClone] at hv
        · intro h
          simp [fetchPackageFromAUR, cloneAURPackage, hc, hv] at h
      · refine ⟨Or.inl ?_, ?_, fun _ => ?_⟩
        · simp [fetchPackageFromAUR, cloneAURPackage, hc, hv]
        · simp [cloneAURPackage, hc, hv]
        · simp [fetchPackageFromAUR, cloneAURPackage, hc, hv]
    · refine ⟨Or.inl ?_, ?_, fun _ => ?_⟩
      · simp [fetchPackageFromAUR, cloneAURPackage, hc]
      · simp [cloneAURPackage, hc]
      · simp [fetchPackageFromAUR, cloneAURPackage, hc]

/-- Witness for C2's theorem: a clone that exits 1 leaves no
directory. -/
theorem fetchPackageFromAUR_atomic_witness :
    (fetchPackageFromAUR "x".data none (.closed 1 none)).fs = none :=
  (fetchPackageFromAUR_atomic "x".data none (.closed 1 none)).2.2 (by decide)

/-- Claim C1 (counterexample): with a failing primary clone (exit code
128) for `pkgnope`, `fetchPackageFromAUR` reports absence although no
mirror clone was attempted — the trace holds exactly the primary AUR
clone, contradicting that absence is reported only when the mirror
clone also fails. -/
theorem fetchPackageFromAUR_absence_without_mirror :
    (fetchPackageFromAUR "pkgnope".data none (.closed 128 none)).info = none ∧
    (fetchPackageFromAUR "pkgnope".data none (.closed 128 none)).trace =
      [GitCmd.cloneAUR "pkgnope".data] ∧
    GitCmd.cloneMirror "pkgnope".data ∉
      (fetchPackageFromAUR "pkgnope".data none (.closed 128 none)).trace := by
  decide

/-- Claim C1 (amended): when the primary clone attempt fails (non-zero
exit, timeout, spawn error or failed validation), `fetchPackageFromAUR`
removes the partial directory and reports absence (leading to HTTP 404)
immediately; no fallback mirror clone is attempted — the only Git
command issued is the primary AUR clone. -/
theorem fetchPackageFromAUR_failure_no_fallback :
    ∀ (name : Str) (pre : Option Dir) (out : CloneOutcome),
      (cloneAURPackage name pre out).ok = false →
        fetchPackageFromAUR name pre out = ⟨none, none, [.cloneAUR name]⟩ ∧
        ∀ m, GitCmd.cloneMirror m ∉ (fetchPackageFromAUR name pre out).trace := by
  intro name pre out h
  have htr := cloneAURPackage_trace name pre out
  have hfe : fetchPackageFromAUR name pre out = ⟨none, none, [.cloneAUR name]⟩ := by
    simp [fetchPackageFromAUR, h, htr]
  refine ⟨hfe, fun m => ?_⟩
  rw [hfe]
  simp

/-- Witness for C1's theorem: a timed-out primary clone yields absence
with only the primary clone in the trace. -/
theorem fetchPackageFromAUR_failure_no_fallback_witness :
    (cloneAURPackage "a".data none .timeout).ok = false ∧
      fetchPackageFromAUR "a".data none .timeout =
        ⟨none, none, [.cloneAUR "a".data]⟩ :=
  ⟨by decide,
    (fetchPackageFromAUR_failure_no_fallback "a".data none .timeout (by decide)).1⟩

/-- Claim C5: at a pack-traffic request for an already-materialized
package, the flow leaves `last_meaningful_access` unchanged — the
branch of GitRepositoryManager.ts line 74 calls `updateLastAccessed`
(bumping `last_accessed` and `total_requests` a second time), not
`updateLastMeaningfulAccess`, which would have set
`last_meaningful_access` to `now` as the claim requires. -/
theorem handleGitRequestDb_meaningful_unchanged :
    handleGitRequestDb "mypkg.git/git-upload-pack".data (some recCounters) false 1000000 =
      some { fetched_at := 0, last_accessed := 1000000, last_meaningful_access := 0,
             ttl_hours := 12, fetch_count := 4, total_requests := 7 } ∧
    (handleGitRequestDb "mypkg.git/git-upload-pack".data (some recCounters) false
        1000000).map (fun r => r.last_meaningful_access) ≠ some 1000000 ∧
    updateLastMeaningfulAccess (some recCounters) 1000000 =
      some { fetched_at := 0, last_accessed := 0, last_meaningful_access := 1000000,
             ttl_hours := 12, fetch_count := 3, total_requests := 5 } := by
  decide

/-- Claim C10 (counterexample): a Git request to an already-materialized
repository whose TTL has expired (12 hours after `fetched_at`, with a
successful `git pull`) increments `fetch_count` by 2 — once in
`ensurePackageRecorded` and once in the refresh's `recordPackageFetch` —
not by exactly 1 as claimed. -/
theorem handleGitRequestDb_refresh_double_increment :
    (handleGitRequestDb "mypkg.git/info/refs".data (some recCounters) true 43200000).map
        (fun r => r.fetch_count) = some 5 ∧
    (handleGitRequestDb "mypkg.git/info/refs".data (some recCounters) true 43200000).map
        (fun r => r.fetch_count) ≠ some 4 := by
  decide

/-- Claim C10 (amended): for a Git request routed to an
already-materialized repository with an existing database row,
`fetch_count` grows by exactly 1 regardless of the request shape, plus
one more when the TTL-refresh fires and its pull succeeds; and
`total_requests` grows by exactly 2 when the path contains
`git-upload-pack`, `git-receive-pack` or `/objects/` (one
`updateLastAccessed` during repository extraction and a second via
`recordGitRequest`), by exactly 1 otherwise. -/
theorem handleGitRequestDb_counters :
    ∀ (param : Str) (r : PackageRecord) (pullOk : Bool) (now : Int),
      ∃ r', handleGitRequestDb param (some r) pullOk now = some r' ∧
        r'.fetch_count = r.fetch_count + 1 +
          (if shouldRefreshPackage (some r) now && pullOk then 1 else 0) ∧
        r'.total_requests = r.total_requests +
          (if isPackOrObjectsPath param then 2 else 1) := by
  intro param r pullOk now
  simp only [handleGitRequestDb, extractRepositoryInfoDb, ensurePackageRecorded,
    incrementFetchCount, recordGitRequest, Option.map_some']
  have hsh : shouldRefreshPackage (some { r with fetch_count := r.fetch_count + 1 }) now =
      shouldRefreshPackage (some r) now := rfl
  rw [hsh]
  cases hb : shouldRefreshPackage (some r) now <;>
    cases pullOk <;>
      cases hm : isPackOrObjectsPath param <;>
        simp [refreshPackage, recordPackageFetch, updateLastAccessed, hm] <;> omega

/-- Claim C8: `cacheRPCResponse` is an upsert — afterwards the row under
the canonical key holds exactly the stored data and timestamp — and a
subsequent `getCachedRPCResponse` returns the data (with the store
unchanged) when `now - cached_at` is under 12 hours, and deletes the
row and returns nothing once 12 hours have elapsed. -/
theorem rpcCache_put_get :
    ∀ (path query v : Str) (store : RpcStore) (tPut tGet : Int),
      (cacheRPCResponse path query v tPut store).find?
          (fun row => row.cache_key == generateRPCCacheKey path query) =
        some ⟨generateRPCCacheKey path query, v, tPut⟩
      ∧ (tGet - tPut < 12 * 3600000 →
          getCachedRPCResponse path query tGet (cacheRPCResponse path query v tPut store) =
            (some v, cacheRPCResponse path query v tPut store))
      ∧ (12 * 3600000 ≤ tGet - tPut →
          getCachedRPCResponse path query tGet (cacheRPCResponse path query v tPut store) =
            (none, (cacheRPCResponse path query v tPut store).filter
               (fun row => !(row.cache_key == generateRPCCacheKey path query)))) := by
  intro path query v store tPut tGet
  have hfind : (cacheRPCResponse path query v tPut store).find?
      (fun row => row.cache_key == generateRPCCacheKey path query) =
        some ⟨generateRPCCacheKey path query, v, tPut⟩ := by
    simp [cacheRPCResponse]
  refine ⟨hfind, ?_, ?_⟩
  · intro h
    simp only [getCachedRPCResponse, hfind]
    rw [if_neg (by omega)]
  · intro h
    simp only [getCachedRPCResponse, hfind]
    rw [if_pos (by omega)]

/-- Witness for C8's theorem: a fresh entry is returned within the
window and evicted after it. -/
theorem rpcCache_put_get_witness :
    getCachedRPCResponse "/p".data "?x=1".data 5
        (cacheRPCResponse "/p".data "?x=1".data "V".data 0 []) =
      (some "V".data, cacheRPCResponse "/p".data "?x=1".data "V".data 0 []) :=
  (rpcCache_put_get "/p".data "?x=1".data "V".data [] 0 5).2.1 (by decide)

/-- Claim C4: on a recipe whose shell evaluation fails or exceeds the
10-second budget, `parsePKGBUILD` does not return the record of the
line-scan fallback — it assembles a record from the empty `execSync`
output (the inner catch swallows the failure, so
`fallbackParsePKGBUILD` is never reached): its `Version` is
`unknown-1`, while the line scan extracts `2.0-3`. -/
theorem parsePKGBUILD_shell_failure_not_fallback :
    parsePKGBUILD "foo".data failingPKGBUILD none 111 ≠
      fallbackParsePKGBUILD "foo".data failingPKGBUILD 111 ∧
    (parsePKGBUILD "foo".data failingPKGBUILD none 111).Version = "unknown-1".data ∧
    (fallbackParsePKGBUILD "foo".data failingPKGBUILD 111).Version = "2.0-3".data := by
  decide

/-- Claim C6 (counterexample): with a fresh `rpc_cache` entry (data
`CACHED`) stored under the canonical key of the query
`?type=info&arg[]=foo`, the RPC lane still computes its answer through
the materialize/parse pipeline — the response is the empty info
response, not the cached bytes. -/
theorem rpcLane_ignores_fresh_cache_entry :
    getCachedRPCResponse "/rpc".data rpcQfoo 1000 rpcStoreWithFreshEntry =
      (some "CACHED".data, rpcStoreWithFreshEntry) ∧
    (rpcLane rpcStoreWithFreshEntry emptyRpcEnv "/rpc".data rpcQfoo).1 =
      generateEmptyResponse "info".data 5 ∧
    (rpcLane rpcStoreWithFreshEntry emptyRpcEnv "/rpc".data rpcQfoo).1 ≠ "CACHED".data := by
  decide

/-- Claim C6 (amended): the RPC translator never consults the RPC
response cache: the response of the `/rpc` lane is independent of the
`rpc_cache` state, which passes through unchanged
(`getCachedRPCResponse` has no caller on this path). -/
theorem rpcLane_independent_of_cache :
    ∀ (st st' : RpcStore) (env : RpcEnv) (path query : Str),
      (rpcLane st env path query).1 = (rpcLane st' env path query).1 ∧
      (rpcLane st env path query).2 = st :=
  fun _ _ _ _ _ => ⟨rfl, rfl⟩

/-- Claim C3 (counterexample): for `type=multiinfo` the canonical key is
the raw `path+query`, so permuting the `arg[]` parameters changes the
key — even though the two queries carry the same parameter multiset. -/
theorem generateRPCCacheKey_multiinfo_not_canonical :
    generateRPCCacheKey "/rpc".data "?type=multiinfo&arg[]=b&arg[]=a".data ≠
      generateRPCCacheKey "/rpc".data "?type=multiinfo&arg[]=a&arg[]=b".data ∧
    generateRPCCacheKey "/rpc".data "?type=multiinfo&arg[]=b&arg[]=a".data =
      "/rpc?type=multiinfo&arg[]=b&arg[]=a".data ∧
    (parseQuery "?type=multiinfo&arg[]=b&arg[]=a".data).Perm
      (parseQuery "?type=multiinfo&arg[]=a&arg[]=b".data) := by
  decide

/-- Claim C3 (amended): for every path and every query whose `type` is
`info` with a non-empty list of `arg[]` parameters, the canonical RPC
cache key is invariant under permutation of the query parameters,
because the key has the form `path?type=info&packages=<sorted names>`;
for `type=multiinfo` the key falls through to the raw `path+query` and
is not canonical. -/
theorem generateRPCCacheKey_info_perm_invariant :
    ∀ (path q1 q2 : Str),
      (parseQuery q1).Perm (parseQuery q2) →
      getParam q1 "type".data = some "info".data →
      getParam q2 "type".data = some "info".data →
      getAllParams q1 "arg[]".data ≠ [] →
      generateRPCCacheKey path q1 = generateRPCCacheKey path q2 := by
  intro path q1 q2 hperm h1 h2 hne1
  have hargs : (getAllParams q1 "arg[]".data).Perm (getAllParams q2 "arg[]".data) :=
    hperm.filterMap _
  have hne2 : getAllParams q2 "arg[]".data ≠ [] := by
    intro h
    exact hne1 ((h ▸ hargs).eq_nil)
  have hsort : List.insertionSort (· ≤ ·) (getAllParams q1 "arg[]".data) =
      List.insertionSort (· ≤ ·) (getAllParams q2 "arg[]".data) :=
    List.eq_of_perm_of_sorted
      (((List.perm_insertionSort _ _).trans hargs).trans
        (List.perm_insertionSort _ _).symm)
      (List.sorted_insertionSort _ _) (List.sorted_insertionSort _ _)
  have hju : jsOrUnknown (some "info".data) = "info".data := by decide
  have hns : ¬("info".data = "search".data) := by decide
  have hempty1 : (getAllParams q1 "arg[]".data).isEmpty = false := by
    cases h : getAllParams q1 "arg[]".data with
    | nil => exact absurd h hne1
    | cons a t => rfl
  have hempty2 : (getAllParams q2 "arg[]".data).isEmpty = false := by
    cases h : getAllParams q2 "arg[]".data with
    | nil => exact absurd h hne2
    | cons a t => rfl
  simp only [generateRPCCacheKey, h1, h2, hju, hns, if_false, if_true, hempty1, hempty2,
    Bool.false_eq_true, ite_false, ite_true, if_neg hns]
  rw [hsort]

/-- Witness for C3's theorem: the two orders of `arg[]=a`, `arg[]=b`
under `type=info` give the same canonical key. -/
theorem generateRPCCacheKey_info_perm_witness :
    generateRPCCacheKey "/rpc".data "?type=info&arg[]=b&arg[]=a".data =
      generateRPCCacheKey "/rpc".data "?type=info&arg[]=a&arg[]=b".data :=
  generateRPCCacheKey_info_perm_invariant "/rpc".data
    "?type=info&arg[]=b&arg[]=a".data "?type=info&arg[]=a&arg[]=b".data
    (by decide) (by decide) (by decide) (by decide)
